import Mathlib

/-!
Verification of the error-function module `mlp/errors.py`.

Arrays of shape `(batch_size, output_dim)` are embedded as lists of rows
(`Mat`), and the elementwise numpy operations are embedded with numpy's
2-D broadcasting rules: the shapes are resolved first (a dimension
broadcasts against an equal dimension or against `1`), and an operation
on incompatible shapes fails, returning `none`.
-/

noncomputable section

/-- A 2-D real array, stored as its list of rows. -/
abbrev Mat := List (List ℝ)

/-- The numpy shape `(batch_size, output_dim)` of a 2-D array. -/
def shape (A : Mat) : Nat × Nat := (A.length, (A.headD []).length)

/-- A list of rows is an actual 2-D array when all rows have one length. -/
def Rect (A : Mat) : Prop := ∀ r ∈ A, r.length = (A.headD []).length

/-- Numpy broadcast of a single dimension: equal dimensions agree, and a
dimension of `1` stretches to match the other side. -/
def bcastLen (m n : Nat) : Option Nat :=
  if m = n then some m else if m = 1 then some n else if n = 1 then some m else none

/-- The index into an operand along a dimension of size `m`, when the result
dimension is larger because `m = 1` was stretched. -/
def bIdx (m i : Nat) : Nat := if m = 1 then 0 else i

/-- Numpy broadcast of two 2-D shapes, resolved before any arithmetic. -/
def npBroadcastShape (s t : Nat × Nat) : Option (Nat × Nat) :=
  match bcastLen s.1 t.1, bcastLen s.2 t.2 with
  | some k, some m => some (k, m)
  | _, _ => none

/-- An elementwise numpy binary operation on two 2-D arrays: resolve the
broadcast shape, then apply `f` entrywise with stretched indexing.
Incompatible shapes raise, embedded as `none`. -/
def npMatZip (f : ℝ → ℝ → ℝ) (A B : Mat) : Option Mat :=
  match npBroadcastShape (shape A) (shape B) with
  | none => none
  | some (k, m) => some ((List.range k).map (fun i =>
      (List.range m).map (fun j =>
        f ((A.getD (bIdx A.length i) []).getD (bIdx (shape A).2 j) 0)
          ((B.getD (bIdx B.length i) []).getD (bIdx (shape B).2 j) 0))))

/-- `np.mean` of a 1-D array. -/
def npMean (l : List ℝ) : ℝ := l.sum / l.length

/-- `np.mean` of a 2-D array without an axis: total sum over total size. -/
def npMeanMat (A : Mat) : ℝ := (A.map List.sum).sum / ((A.map List.length).sum : ℕ)

/-- `np.linalg.norm(v, 1)`: the sum of absolute values. -/
def l1Norm (v : List ℝ) : ℝ := (v.map (fun x => |x|)).sum

/-- `np.linalg.norm(v, 2)`: the Euclidean norm. -/
def l2Norm (v : List ℝ) : ℝ := Real.sqrt ((v.map (fun x => x ^ 2)).sum)

/-- `row.max(-1)` for a (nonempty) row, as numpy computes it. -/
def npRowMax (r : List ℝ) : ℝ :=
  match r with
  | [] => 0
  | x :: xs => xs.foldl max x

lemma bcastLen_self (n : Nat) : bcastLen n n = some n := by simp [bcastLen]

lemma bIdx_of_lt {m i : Nat} (h : i < m) : bIdx m i = i := by
  unfold bIdx
  split
  · omega
  · rfl

lemma rangeMap_getD_eq_zipWith (f : ℝ → ℝ → ℝ) (a b : List ℝ) (m : Nat)
    (ha : a.length = m) (hb : b.length = m) :
    (List.range m).map (fun j => f (a.getD (bIdx m j) 0) (b.getD (bIdx m j) 0)) =
      List.zipWith f a b := by
  apply List.ext_getElem
  · simp [ha, hb]
  · intro i h1 h2
    have him : i < m := by simpa using h1
    have hia : i < a.length := by omega
    have hib : i < b.length := by omega
    simp only [List.getElem_map, List.getElem_range, List.getElem_zipWith]
    rw [bIdx_of_lt him, List.getD_eq_getElem a 0 hia, List.getD_eq_getElem b 0 hib]

/-- On two arrays of the same rectangular shape, the broadcast elementwise
operation is the plain rowwise `zipWith`. -/
lemma npMatZip_eq_zipWith (f : ℝ → ℝ → ℝ) (A B : Mat)
    (hA : Rect A) (hB : Rect B) (h : shape A = shape B) :
    npMatZip f A B = some (List.zipWith (fun r s => List.zipWith f r s) A B) := by
  have hlen : A.length = B.length := congrArg Prod.fst h
  have hcol : (A.headD []).length = (B.headD []).length := congrArg Prod.snd h
  have e1 : bcastLen (shape A).1 (shape B).1 = some A.length := by
    simp only [shape, ← hlen]
    exact bcastLen_self _
  have e2 : bcastLen (shape A).2 (shape B).2 = some (A.headD []).length := by
    simp only [shape, ← hcol]
    exact bcastLen_self _
  unfold npMatZip npBroadcastShape
  simp only [e1, e2]
  congr 1
  apply List.ext_getElem
  · simp [hlen]
  · intro i h1 h2
    have hiA : i < A.length := by simpa using h1
    have hiB : i < B.length := by omega
    simp only [List.getElem_map, List.getElem_range, List.getElem_zipWith]
    rw [bIdx_of_lt hiA, bIdx_of_lt hiB, List.getD_eq_getElem A [] hiA,
      List.getD_eq_getElem B [] hiB]
    have hAi : A[i].length = (A.headD []).length := hA A[i] (List.getElem_mem hiA)
    have hBi : B[i].length = (A.headD []).length := by
      rw [hB B[i] (List.getElem_mem hiB)]
      exact hcol.symm
    simp only [shape, ← hcol]
    exact rangeMap_getD_eq_zipWith f A[i] B[i] _ hAi hBi

/-- The broadcast operation fails exactly when the two shapes fail to
broadcast. -/
lemma npMatZip_eq_none_iff (f : ℝ → ℝ → ℝ) (A B : Mat) :
    npMatZip f A B = none ↔ npBroadcastShape (shape A) (shape B) = none := by
  unfold npMatZip
  cases hs : npBroadcastShape (shape A) (shape B) with
  | none => simp
  | some s => cases s; simp

/-- The external model read by `CrossEntropySoftmaxError`: an ordered
collection of parameter arrays and a regularizer configuration. -/
structure Model where
  params : List Mat
  regularizer : Option String
  regularizer_lambda : ℝ

namespace SumOfSquaredDiffsError

/-- `SumOfSquaredDiffsError.__call__`:
`np.mean(np.sum((outputs - targets)**2, axis=1)) * 0.5`. -/
def call (outputs targets : Mat) : Option ℝ :=
  (npMatZip (fun x y => x - y) outputs targets).map (fun d =>
    npMean (d.map (fun r => (r.map (fun x => x ^ 2)).sum)) * 0.5)

/-- `SumOfSquaredDiffsError.grad`: `(outputs - targets) / outputs.shape[0]`. -/
def grad (outputs targets : Mat) : Option Mat :=
  (npMatZip (fun x y => x - y) outputs targets).map (fun d =>
    d.map (fun r => r.map (fun x => x / outputs.length)))

end SumOfSquaredDiffsError

namespace BinaryCrossEntropyError

/-- `BinaryCrossEntropyError.__call__` evaluates
`-np.mean(targets * np.log(outputs) + (1. - targets) * np.log(1. - ouputs))`,
and the name `ouputs` (so misspelled on line 60 of `mlp/errors.py`) is bound
nowhere, so every call raises `NameError` before producing a value; the
method is therefore embedded as the constantly failing function. -/
def call (_outputs _targets : Mat) : Option ℝ := none

/-- `BinaryCrossEntropyError.grad`:
`((1. - targets) / (1. - outputs) - (targets / outputs)) / outputs.shape[0]`. -/
def grad (outputs targets : Mat) : Option Mat :=
  (npMatZip (fun t o => (1 - t) / (1 - o) - t / o) targets outputs).map (fun d =>
    d.map (fun r => r.map (fun x => x / outputs.length)))

end BinaryCrossEntropyError

/-- The logistic sigmoid `1. / (1. + np.exp(-outputs))` applied entrywise. -/
def sigmoidMat (outputs : Mat) : Mat :=
  outputs.map (fun r => r.map (fun x => 1 / (1 + Real.exp (-x))))

namespace BinaryCrossEntropySigmoidError

/-- `BinaryCrossEntropySigmoidError.__call__`:
`probs = 1. / (1. + np.exp(-outputs))`, then
`-np.mean(targets * np.log(probs) + (1. - targets) * np.log(1. - probs))`. -/
def call (outputs targets : Mat) : Option ℝ :=
  (npMatZip (fun t p => t * Real.log p + (1 - t) * Real.log (1 - p))
      targets (sigmoidMat outputs)).map (fun m => -npMeanMat m)

/-- `BinaryCrossEntropySigmoidError.grad`:
`probs = 1. / (1. + np.exp(-outputs))`, then
`(probs - targets) / outputs.shape[0]`. -/
def grad (outputs targets : Mat) : Option Mat :=
  (npMatZip (fun p t => p - t) (sigmoidMat outputs) targets).map (fun d =>
    d.map (fun r => r.map (fun x => x / outputs.length)))

end BinaryCrossEntropySigmoidError

namespace CrossEntropyError

/-- `CrossEntropyError.__call__`:
`-np.mean(np.sum(targets * np.log(outputs), axis=1))`. -/
def call (outputs targets : Mat) : Option ℝ :=
  (npMatZip (fun t o => t * Real.log o) targets outputs).map (fun m =>
    -npMean (m.map List.sum))

/-- `CrossEntropyError.grad`: `-(targets / outputs) / outputs.shape[0]`. -/
def grad (outputs targets : Mat) : Option Mat :=
  (npMatZip (fun t o => t / o) targets outputs).map (fun d =>
    d.map (fun r => r.map (fun x => -x / outputs.length)))

end CrossEntropyError

namespace CrossEntropySoftmaxError

/-- `CrossEntropySoftmaxError._get_weights`:
`np.concatenate([param_layer.flatten() for param_layer in self.model.params])`.
With no parameter arrays at all, `np.concatenate([])` raises
`ValueError: need at least one array to concatenate`, embedded as `none`. -/
def _get_weights (model : Model) : Option (List ℝ) :=
  match model.params with
  | [] => none
  | params => some ((params.map (fun param_layer => param_layer.flatten)).flatten)

/-- `normalized_outputs = outputs - outputs.max(-1)[:, None]`: each row
maximum is subtracted from every entry of its row. `outputs.max(-1)` raises
`ValueError` on a zero-size reduction axis, that is when some row is empty,
embedded as the `none` guard; on nonempty rows `npRowMax` is the maximum. -/
def normalized_outputs (outputs : Mat) : Option Mat :=
  if outputs.any List.isEmpty then none
  else some (outputs.map (fun r => r.map (fun x => x - npRowMax r)))

/-- `log_prob = normalized_outputs
  - np.log(np.sum(np.exp(normalized_outputs), axis=-1))[:, None]`. -/
def log_prob (outputs : Mat) : Option Mat :=
  (normalized_outputs outputs).map (fun no =>
    no.map (fun r => r.map (fun x => x - Real.log ((r.map Real.exp).sum))))

/-- `probs = np.exp(outputs - outputs.max(-1)[:, None])` followed by
`probs /= probs.sum(-1)[:, None]`. -/
def probs (outputs : Mat) : Option Mat :=
  (normalized_outputs outputs).map (fun no =>
    (no.map (fun r => r.map Real.exp)).map (fun r => r.map (fun x => x / r.sum)))

/-- `CrossEntropySoftmaxError.__call__`: `log_prob` is computed first (it can
raise on an empty row), then `cost = -np.mean(np.sum(targets * log_prob,
axis=1))` (the product can raise on non-broadcastable shapes), then the `L1`
or `L2` penalty `regularizer_lambda * np.linalg.norm(self._get_weights(), p)`
is added when the model regularizer is one of the strings `'L1'`, `'L2'` —
only those two branches fetch the weights, which can itself raise. -/
def call (model : Model) (outputs targets : Mat) : Option ℝ :=
  (log_prob outputs).bind (fun lp =>
    (npMatZip (fun t l => t * l) targets lp).bind (fun tp =>
      let cost := -npMean (tp.map List.sum)
      if model.regularizer = some "L1" then
        (_get_weights model).map (fun w =>
          cost + model.regularizer_lambda * l1Norm w)
      else if model.regularizer = some "L2" then
        (_get_weights model).map (fun w =>
          cost + model.regularizer_lambda * l2Norm w)
      else some cost))

/-- `CrossEntropySoftmaxError.grad`: `probs` is computed first (it can raise
on an empty row), then `(probs - targets) / outputs.shape[0]`; the method
reads nothing from `self.model`. -/
def grad (_model : Model) (outputs targets : Mat) : Option Mat :=
  (probs outputs).bind (fun p =>
    (npMatZip (fun p t => p - t) p targets).map (fun d =>
      d.map (fun r => r.map (fun x => x / outputs.length))))

end CrossEntropySoftmaxError

/-- Mapping a length-preserving row operation over a batch keeps its shape. -/
lemma shape_map_rows (g : List ℝ → List ℝ) (hg : ∀ r, (g r).length = r.length)
    (A : Mat) : shape (A.map g) = shape A := by
  cases A with
  | nil => rfl
  | cons a A => simp [shape, hg]

/-- Mapping a length-preserving row operation over a batch keeps it
rectangular. -/
lemma rect_map_rows (g : List ℝ → List ℝ) (hg : ∀ r, (g r).length = r.length)
    (A : Mat) (hA : Rect A) : Rect (A.map g) := by
  intro r hr
  obtain ⟨s, hs, rfl⟩ := List.mem_map.mp hr
  have hhead : ((A.map g).headD []).length = (A.headD []).length :=
    congrArg Prod.snd (shape_map_rows g hg A)
  rw [hhead, hg s]
  exact hA s hs

lemma sigmoidMat_eq_map (o : Mat) :
    sigmoidMat o = o.map (fun r => r.map (fun x => 1 / (1 + Real.exp (-x)))) := rfl

lemma shape_sigmoidMat (o : Mat) : shape (sigmoidMat o) = shape o :=
  shape_map_rows _ (fun r => by simp) o

lemma rect_sigmoidMat (o : Mat) (ho : Rect o) : Rect (sigmoidMat o) :=
  rect_map_rows _ (fun r => by simp) o ho

namespace CrossEntropySoftmaxError

lemma normalized_outputs_eq_some (o : Mat) (he : o.any List.isEmpty = false) :
    normalized_outputs o = some (o.map (fun r => r.map (fun x => x - npRowMax r))) := by
  unfold normalized_outputs
  rw [if_neg (by simp [he])]

lemma log_prob_eq_some (o : Mat) (he : o.any List.isEmpty = false) :
    log_prob o = some (o.map (fun r =>
      (r.map (fun x => x - npRowMax r)).map (fun x =>
        x - Real.log (((r.map (fun y => y - npRowMax r)).map Real.exp).sum)))) := by
  unfold log_prob
  rw [normalized_outputs_eq_some o he, Option.map_some', List.map_map]
  rfl

lemma log_prob_eq_none (o : Mat) (he : o.any List.isEmpty = true) :
    log_prob o = none := by
  unfold log_prob normalized_outputs
  rw [if_pos he]
  rfl

lemma probs_eq_some (o : Mat) (he : o.any List.isEmpty = false) :
    probs o = some (o.map (fun r =>
      ((r.map (fun x => x - npRowMax r)).map Real.exp).map (fun x =>
        x / ((r.map (fun y => y - npRowMax r)).map Real.exp).sum))) := by
  unfold probs
  rw [normalized_outputs_eq_some o he, Option.map_some', List.map_map, List.map_map]
  rfl

lemma probs_eq_none (o : Mat) (he : o.any List.isEmpty = true) :
    probs o = none := by
  unfold probs normalized_outputs
  rw [if_pos he]
  rfl

lemma shape_of_log_prob {o lp : Mat} (h : log_prob o = some lp) :
    shape lp = shape o := by
  cases hb : o.any List.isEmpty with
  | true =>
    rw [log_prob_eq_none o hb] at h
    exact absurd h (by simp)
  | false =>
    rw [log_prob_eq_some o hb] at h
    injection h with h
    rw [← h]
    exact shape_map_rows _ (fun r => by simp) o

lemma rect_of_log_prob {o lp : Mat} (h : log_prob o = some lp) (ho : Rect o) :
    Rect lp := by
  cases hb : o.any List.isEmpty with
  | true =>
    rw [log_prob_eq_none o hb] at h
    exact absurd h (by simp)
  | false =>
    rw [log_prob_eq_some o hb] at h
    injection h with h
    rw [← h]
    exact rect_map_rows _ (fun r => by simp) o ho

lemma shape_of_probs {o p : Mat} (h : probs o = some p) : shape p = shape o := by
  cases hb : o.any List.isEmpty with
  | true =>
    rw [probs_eq_none o hb] at h
    exact absurd h (by simp)
  | false =>
    rw [probs_eq_some o hb] at h
    injection h with h
    rw [← h]
    exact shape_map_rows _ (fun r => by simp) o

lemma rect_of_probs {o p : Mat} (h : probs o = some p) (ho : Rect o) : Rect p := by
  cases hb : o.any List.isEmpty with
  | true =>
    rw [probs_eq_none o hb] at h
    exact absurd h (by simp)
  | false =>
    rw [probs_eq_some o hb] at h
    injection h with h
    rw [← h]
    exact rect_map_rows _ (fun r => by simp) o ho

end CrossEntropySoftmaxError

lemma sum_map_div (l : List ℝ) (a : ℝ) : (l.map (fun x => x / a)).sum = l.sum / a := by
  induction l with
  | nil => simp
  | cons x xs ih => simp [ih, add_div]

lemma sum_zipWith_sub (a b : List ℝ) (h : a.length = b.length) :
    (List.zipWith (fun x y => x - y) a b).sum = a.sum - b.sum := by
  induction a generalizing b with
  | nil =>
    have hb : b = [] := List.eq_nil_of_length_eq_zero (by simpa using h.symm)
    subst hb
    simp
  | cons x xs ih =>
    cases b with
    | nil => simp at h
    | cons y ys =>
      simp only [List.zipWith_cons_cons, List.sum_cons]
      rw [ih ys (by simpa using h)]
      ring

lemma sum_exp_pos (l : List ℝ) (h : l ≠ []) : 0 < (l.map Real.exp).sum := by
  cases l with
  | nil => exact absurd rfl h
  | cons x xs =>
    have h1 : 0 ≤ (xs.map Real.exp).sum :=
      List.sum_nonneg (by
        intro y hy
        obtain ⟨z, _, rfl⟩ := List.mem_map.mp hy
        exact (Real.exp_pos z).le)
    simp only [List.map_cons, List.sum_cons]
    linarith [Real.exp_pos x]

/-- Duplicate every row of a batch, in order. -/
def dupRows : Mat → Mat
  | [] => []
  | r :: rs => r :: r :: dupRows rs

/-- The rows of a halved gradient, each duplicated: what the gradient of a
row-duplicated batch looks like in terms of the original gradient. -/
def halfDup (g : Mat) : Mat := dupRows (g.map (fun r => r.map (fun x => x / 2)))

lemma length_dupRows (A : Mat) : (dupRows A).length = 2 * A.length := by
  induction A with
  | nil => rfl
  | cons r rs ih =>
    simp only [dupRows, List.length_cons, ih]
    omega

lemma headD_dupRows (A : Mat) : (dupRows A).headD [] = A.headD [] := by
  cases A with
  | nil => rfl
  | cons r rs => rfl

lemma shape_dupRows (A : Mat) : shape (dupRows A) = (2 * A.length, (shape A).2) := by
  simp only [shape, length_dupRows, headD_dupRows]

lemma mem_dupRows {r : List ℝ} {A : Mat} : r ∈ dupRows A ↔ r ∈ A := by
  induction A with
  | nil => simp [dupRows]
  | cons a as ih =>
    simp only [dupRows, List.mem_cons, ih]
    tauto

lemma rect_dupRows (A : Mat) (hA : Rect A) : Rect (dupRows A) := by
  intro r hr
  rw [headD_dupRows]
  exact hA r (mem_dupRows.mp hr)

lemma dupRows_map (f : List ℝ → List ℝ) (A : Mat) :
    dupRows (A.map f) = (dupRows A).map f := by
  induction A with
  | nil => rfl
  | cons r rs ih => simp [dupRows, ih]

lemma zipWith_dupRows (f : List ℝ → List ℝ → List ℝ) (A B : Mat) :
    List.zipWith f (dupRows A) (dupRows B) = dupRows (List.zipWith f A B) := by
  induction A generalizing B with
  | nil => simp [dupRows]
  | cons a as ih =>
    cases B with
    | nil => simp [dupRows]
    | cons b bs => simp [dupRows, ih]

lemma sum_map_dupRows {β : Type} [AddCommMonoid β] (g : List ℝ → β) (A : Mat) :
    ((dupRows A).map g).sum = (A.map g).sum + (A.map g).sum := by
  induction A with
  | nil => simp [dupRows]
  | cons r rs ih =>
    simp only [dupRows, List.map_cons, List.sum_cons, ih]
    abel

lemma npMean_map_dupRows (g : List ℝ → ℝ) (d : Mat) :
    npMean ((dupRows d).map g) = npMean (d.map g) := by
  unfold npMean
  rw [sum_map_dupRows]
  simp only [List.length_map, length_dupRows]
  rw [show (d.map g).sum + (d.map g).sum = 2 * (d.map g).sum by ring]
  push_cast
  rw [mul_div_mul_left _ _ (two_ne_zero)]

lemma npMeanMat_dupRows (A : Mat) : npMeanMat (dupRows A) = npMeanMat A := by
  unfold npMeanMat
  rw [sum_map_dupRows, sum_map_dupRows, Nat.cast_add]
  rw [show (A.map List.sum).sum + (A.map List.sum).sum = 2 * (A.map List.sum).sum by
    ring]
  rw [show (((A.map List.length).sum : ℕ) : ℝ) + (((A.map List.length).sum : ℕ) : ℝ) =
    2 * (((A.map List.length).sum : ℕ) : ℝ) by ring]
  rw [mul_div_mul_left _ _ (two_ne_zero)]

/-- On a rectangular pair of one shape, the broadcast elementwise operation
commutes with duplicating all rows. -/
lemma npMatZip_dupRows (f : ℝ → ℝ → ℝ) (A B : Mat)
    (hA : Rect A) (hB : Rect B) (h : shape A = shape B) :
    npMatZip f (dupRows A) (dupRows B) = (npMatZip f A B).map dupRows := by
  rw [npMatZip_eq_zipWith f A B hA hB h,
    npMatZip_eq_zipWith f (dupRows A) (dupRows B) (rect_dupRows A hA) (rect_dupRows B hB)
      (by
        have hlen : A.length = B.length := congrArg Prod.fst h
        rw [shape_dupRows, shape_dupRows, h, hlen])]
  simp only [Option.map_some']
  rw [zipWith_dupRows]

lemma map_div_dupRows (g : ℝ → ℝ) (n : ℕ) (d : Mat) :
    (dupRows d).map (fun r => r.map (fun x => g x / ((2 * n : ℕ) : ℝ))) =
      halfDup (d.map (fun r => r.map (fun x => g x / (n : ℝ)))) := by
  unfold halfDup
  rw [← dupRows_map]
  congr 1
  rw [List.map_map]
  apply List.map_congr_left
  intro r _
  simp only [Function.comp, List.map_map]
  apply List.map_congr_left
  intro x _
  simp only [Function.comp]
  push_cast
  rw [div_div]
  ring_nf

/-- Adding the scalar `c` to every entry: `outputs + c`. -/
def matAddConst (A : Mat) (c : ℝ) : Mat := A.map (fun r => r.map (fun x => x + c))

lemma length_matAddConst (A : Mat) (c : ℝ) : (matAddConst A c).length = A.length := by
  simp [matAddConst]

lemma foldl_max_add (xs : List ℝ) (x c : ℝ) :
    (xs.map (fun y => y + c)).foldl max (x + c) = xs.foldl max x + c := by
  induction xs generalizing x with
  | nil => rfl
  | cons y ys ih =>
    simp only [List.map_cons, List.foldl_cons]
    rw [show max (x + c) (y + c) = max x y + c from max_add_add_right x y c, ih]

lemma npRowMax_add (r : List ℝ) (c : ℝ) (hr : r ≠ []) :
    npRowMax (r.map (fun x => x + c)) = npRowMax r + c := by
  cases r with
  | nil => exact absurd rfl hr
  | cons x xs => simpa [npRowMax] using foldl_max_add xs x c

lemma any_isEmpty_matAddConst (o : Mat) (c : ℝ) :
    (matAddConst o c).any List.isEmpty = o.any List.isEmpty := by
  unfold matAddConst
  rw [List.any_map]
  congr 1
  funext r
  cases r <;> rfl

lemma any_isEmpty_dupRows (p : List ℝ → Bool) (A : Mat) :
    (dupRows A).any p = A.any p := by
  induction A with
  | nil => rfl
  | cons r rs ih =>
    cases hpr : p r <;> simp [dupRows, List.any_cons, hpr, ih]

namespace CrossEntropySoftmaxError

/-- Per-row max-subtraction erases a constant shift of the whole batch, and
a shifted row is empty exactly when the original row is. -/
lemma normalized_outputs_addConst (o : Mat) (c : ℝ) :
    normalized_outputs (matAddConst o c) = normalized_outputs o := by
  have hrow : ∀ r : List ℝ,
      (r.map (fun x => x + c)).map (fun x => x - npRowMax (r.map (fun y => y + c))) =
        r.map (fun x => x - npRowMax r) := by
    intro r
    cases r with
    | nil => simp
    | cons x xs =>
      rw [npRowMax_add _ c (by simp)]
      rw [List.map_map]
      apply List.map_congr_left
      intro a _
      simp only [Function.comp_apply]
      ring
  unfold normalized_outputs
  simp only [any_isEmpty_matAddConst]
  by_cases hb : o.any List.isEmpty = true
  · rw [if_pos hb, if_pos hb]
  · rw [if_neg hb, if_neg hb]
    congr 1
    unfold matAddConst
    rw [List.map_map]
    apply List.map_congr_left
    intro r _
    exact hrow r

lemma log_prob_addConst (o : Mat) (c : ℝ) :
    log_prob (matAddConst o c) = log_prob o := by
  unfold log_prob
  rw [normalized_outputs_addConst]

lemma probs_addConst (o : Mat) (c : ℝ) :
    probs (matAddConst o c) = probs o := by
  unfold probs
  rw [normalized_outputs_addConst]

lemma normalized_outputs_dupRows (o : Mat) :
    normalized_outputs (dupRows o) = (normalized_outputs o).map dupRows := by
  unfold normalized_outputs
  simp only [any_isEmpty_dupRows]
  by_cases hb : o.any List.isEmpty = true
  · rw [if_pos hb, if_pos hb]
    rfl
  · rw [if_neg hb, if_neg hb]
    simp only [Option.map_some']
    congr 1
    exact (dupRows_map _ o).symm

lemma log_prob_dupRows (o : Mat) :
    log_prob (dupRows o) = (log_prob o).map dupRows := by
  unfold log_prob
  rw [normalized_outputs_dupRows, Option.map_map, Option.map_map]
  congr 1
  funext no
  simp only [Function.comp_apply]
  exact (dupRows_map _ no).symm

lemma probs_dupRows (o : Mat) :
    probs (dupRows o) = (probs o).map dupRows := by
  unfold probs
  rw [normalized_outputs_dupRows, Option.map_map, Option.map_map]
  congr 1
  funext no
  simp only [Function.comp_apply]
  rw [← dupRows_map, ← dupRows_map]

end CrossEntropySoftmaxError

lemma sigmoidMat_dupRows (o : Mat) : sigmoidMat (dupRows o) = dupRows (sigmoidMat o) := by
  unfold sigmoidMat
  rw [← dupRows_map]

lemma sum_map_mul_left (a : ℝ) (l : List ℝ) :
    (l.map (fun x => a * x)).sum = a * l.sum := by
  induction l with
  | nil => simp
  | cons x xs ih => simp [ih, mul_add]

/-- Claim C1: the spec says `BinaryCrossEntropyError` called as
`value(outputs, targets)` returns
`-mean(targets*log(outputs) + (1-targets)*log(1-outputs))` for outputs in
`(0,1)`; the source method instead references the undefined name `ouputs`
and raises `NameError` on every call, so it never returns a value. -/
theorem claim_C1 : ∀ outputs targets : Mat,
    BinaryCrossEntropyError.call outputs targets = none :=
  fun _ _ => rfl

/-- Claim C2, counterexample: a shape mismatch that numpy can broadcast,
outputs of shape `(2,2)` against targets of shape `(1,2)`, is not rejected:
`SumOfSquaredDiffsError` silently broadcasts it into the scalar `15/2`. -/
theorem claim_C2_counterexample :
    shape [[1, 2], [3, 4]] ≠ shape [[0, 0]] ∧
    SumOfSquaredDiffsError.call [[1, 2], [3, 4]] [[0, 0]] = some (15 / 2) := by
  constructor
  · decide
  · simp [SumOfSquaredDiffsError.call, npMatZip, npBroadcastShape, bcastLen, shape,
      bIdx, npMean, List.range_succ]
    norm_num

/-- Claim C2, amended: no variant checks shapes itself; the array library's
broadcasting decides. For SumOfSquaredDiffs, BinaryCrossEntropy's gradient
(its value always raises, see C1), BinaryCrossEntropySigmoid and
CrossEntropy, value and gradient fail exactly when the two shapes fail to
broadcast; for CrossEntropySoftmax a broadcast failure also fails value and
gradient (that variant has failure sources of its own besides shapes: empty
rows, and an empty parameter list under `L1`/`L2`). So the non-broadcastable
pair `(4,3)` versus `(4,2)` is rejected during the arithmetic, not by an
up-front check, while broadcastable mismatches are silently folded into a
result. -/
theorem claim_C2_amended :
    (∀ outputs targets : Mat,
      (SumOfSquaredDiffsError.call outputs targets = none ↔
        npBroadcastShape (shape outputs) (shape targets) = none) ∧
      (SumOfSquaredDiffsError.grad outputs targets = none ↔
        npBroadcastShape (shape outputs) (shape targets) = none) ∧
      (BinaryCrossEntropyError.grad outputs targets = none ↔
        npBroadcastShape (shape targets) (shape outputs) = none) ∧
      (BinaryCrossEntropySigmoidError.call outputs targets = none ↔
        npBroadcastShape (shape targets) (shape outputs) = none) ∧
      (BinaryCrossEntropySigmoidError.grad outputs targets = none ↔
        npBroadcastShape (shape outputs) (shape targets) = none) ∧
      (CrossEntropyError.call outputs targets = none ↔
        npBroadcastShape (shape targets) (shape outputs) = none) ∧
      (CrossEntropyError.grad outputs targets = none ↔
        npBroadcastShape (shape targets) (shape outputs) = none)) ∧
    (∀ (m : Model) (outputs targets : Mat),
      npBroadcastShape (shape targets) (shape outputs) = none →
        CrossEntropySoftmaxError.call m outputs targets = none) ∧
    (∀ (m : Model) (outputs targets : Mat),
      npBroadcastShape (shape outputs) (shape targets) = none →
        CrossEntropySoftmaxError.grad m outputs targets = none) ∧
    SumOfSquaredDiffsError.call [[1, 2, 3], [4, 5, 6], [7, 8, 9], [10, 11, 12]]
      [[1, 2], [3, 4], [5, 6], [7, 8]] = none ∧
    (∀ m : Model, CrossEntropySoftmaxError.call m
      [[1, 2, 3], [4, 5, 6], [7, 8, 9], [10, 11, 12]]
      [[1, 2], [3, 4], [5, 6], [7, 8]] = none) := by
  have p1 : ∀ outputs targets : Mat,
      SumOfSquaredDiffsError.call outputs targets = none ↔
        npBroadcastShape (shape outputs) (shape targets) = none := by
    intro o t
    unfold SumOfSquaredDiffsError.call
    rw [Option.map_eq_none']
    exact npMatZip_eq_none_iff _ o t
  have pcall : ∀ (m : Model) (o t : Mat),
      npBroadcastShape (shape t) (shape o) = none →
        CrossEntropySoftmaxError.call m o t = none := by
    intro m o t hb
    unfold CrossEntropySoftmaxError.call
    cases hlp : CrossEntropySoftmaxError.log_prob o with
    | none => rfl
    | some lp =>
      simp only [Option.some_bind]
      have hz : npMatZip (fun t l => t * l) t lp = none := by
        rw [npMatZip_eq_none_iff, CrossEntropySoftmaxError.shape_of_log_prob hlp]
        exact hb
      rw [hz]
      rfl
  refine ⟨?_, pcall, ?_, (p1 _ _).mpr (by decide), fun m => pcall m _ _ (by decide)⟩
  · intro o t
    refine ⟨p1 o t, ?_, ?_, ?_, ?_, ?_, ?_⟩
    · unfold SumOfSquaredDiffsError.grad
      rw [Option.map_eq_none']
      exact npMatZip_eq_none_iff _ o t
    · unfold BinaryCrossEntropyError.grad
      rw [Option.map_eq_none']
      exact npMatZip_eq_none_iff _ t o
    · unfold BinaryCrossEntropySigmoidError.call
      rw [Option.map_eq_none', npMatZip_eq_none_iff, shape_sigmoidMat]
    · unfold BinaryCrossEntropySigmoidError.grad
      rw [Option.map_eq_none', npMatZip_eq_none_iff, shape_sigmoidMat]
    · unfold CrossEntropyError.call
      rw [Option.map_eq_none']
      exact npMatZip_eq_none_iff _ t o
    · unfold CrossEntropyError.grad
      rw [Option.map_eq_none']
      exact npMatZip_eq_none_iff _ t o
  · intro m o t hb
    unfold CrossEntropySoftmaxError.grad
    cases hp : CrossEntropySoftmaxError.probs o with
    | none => rfl
    | some p =>
      simp only [Option.some_bind]
      rw [Option.map_eq_none', npMatZip_eq_none_iff,
        CrossEntropySoftmaxError.shape_of_probs hp]
      exact hb

/-- Claim C3: on equal-shaped arrays with at least one row,
`SumOfSquaredDiffsError` value is the batch mean of half the per-row sum of
squared differences, and its gradient is `(outputs - targets) / batch_size`. -/
theorem claim_C3 (outputs targets : Mat) (ho : Rect outputs) (ht : Rect targets)
    (h : shape outputs = shape targets) (hr : 0 < outputs.length) :
    SumOfSquaredDiffsError.call outputs targets =
      some ((List.zipWith (fun r s =>
          (0.5 : ℝ) * (List.zipWith (fun x y => (x - y) ^ 2) r s).sum) outputs
          targets).sum / (outputs.length : ℝ)) ∧
    SumOfSquaredDiffsError.grad outputs targets =
      some (List.zipWith (fun r s =>
        List.zipWith (fun x y => (x - y) / (outputs.length : ℝ)) r s) outputs
        targets) := by
  have hlen : targets.length = outputs.length := (congrArg Prod.fst h).symm
  constructor
  · unfold SumOfSquaredDiffsError.call
    rw [npMatZip_eq_zipWith _ outputs targets ho ht h]
    simp only [Option.map_some', Option.some.injEq]
    simp only [List.map_zipWith]
    rw [show (List.zipWith (fun r s =>
          (0.5 : ℝ) * (List.zipWith (fun x y => (x - y) ^ 2) r s).sum) outputs targets) =
        (List.zipWith (fun r s =>
          (List.zipWith (fun x y => (x - y) ^ 2) r s).sum) outputs targets).map
          (fun x => (0.5 : ℝ) * x) from (List.map_zipWith ..).symm]
    rw [sum_map_mul_left]
    unfold npMean
    simp only [List.length_zipWith, hlen, min_self]
    ring
  · unfold SumOfSquaredDiffsError.grad
    rw [npMatZip_eq_zipWith _ outputs targets ho ht h]
    simp only [Option.map_some', Option.some.injEq]
    simp only [List.map_zipWith]

/-- Witness for C3 at the spec's concrete scenario: `outputs = [[1,2]]`,
`targets = [[0,0]]` give value `5/2` and gradient `[[1,2]]`. -/
theorem claim_C3_witness :
    SumOfSquaredDiffsError.call [[1, 2]] [[0, 0]] = some (5 / 2) ∧
    SumOfSquaredDiffsError.grad [[1, 2]] [[0, 0]] = some [[1, 2]] := by
  have hc := claim_C3 [[1, 2]] [[0, 0]]
    (by unfold Rect; decide) (by unfold Rect; decide) rfl (by decide)
  refine ⟨?_, ?_⟩
  · rw [hc.1]
    norm_num
  · rw [hc.2]
    norm_num

/-- Claim C4: `CrossEntropySoftmaxError` value and gradient are invariant
under adding one scalar `c` to every entry of `outputs` (softmax
shift-invariance, realized by the per-row max subtraction). -/
theorem claim_C4 (m : Model) (outputs targets : Mat) (c : ℝ)
    (h : shape outputs = shape targets) (hr : 0 < outputs.length) :
    CrossEntropySoftmaxError.call m (matAddConst outputs c) targets =
      CrossEntropySoftmaxError.call m outputs targets ∧
    CrossEntropySoftmaxError.grad m (matAddConst outputs c) targets =
      CrossEntropySoftmaxError.grad m outputs targets := by
  constructor
  · unfold CrossEntropySoftmaxError.call
    rw [CrossEntropySoftmaxError.log_prob_addConst]
  · unfold CrossEntropySoftmaxError.grad
    rw [CrossEntropySoftmaxError.probs_addConst, length_matAddConst]

/-- Witness for C4 at `outputs = [[1]]`, `targets = [[1]]`, `c = 2`. -/
theorem claim_C4_witness :
    CrossEntropySoftmaxError.call ⟨[], none, 0⟩ (matAddConst [[1]] 2) [[1]] =
      CrossEntropySoftmaxError.call ⟨[], none, 0⟩ [[1]] [[1]] ∧
    CrossEntropySoftmaxError.grad ⟨[], none, 0⟩ (matAddConst [[1]] 2) [[1]] =
      CrossEntropySoftmaxError.grad ⟨[], none, 0⟩ [[1]] [[1]] :=
  claim_C4 ⟨[], none, 0⟩ [[1]] [[1]] 2 rfl (by decide)

/-- Claim C5, counterexample: with an empty parameter list and `L = 0` the
`"L2"` value call fails at `np.concatenate([])`, while the unregularized
value of the same inputs is the number `0` — so the `"L2"` value is not the
unregularized value plus `L` times a norm, and the two values differ even at
`L = 0`. -/
theorem claim_C5_counterexample :
    CrossEntropySoftmaxError.call ⟨[], some "L2", 0⟩ [[1]] [[1]] = none ∧
    CrossEntropySoftmaxError.call ⟨[], none, 0⟩ [[1]] [[1]] = some 0 := by
  constructor
  · rfl
  · unfold CrossEntropySoftmaxError.call CrossEntropySoftmaxError.log_prob
      CrossEntropySoftmaxError.normalized_outputs
    norm_num [npMatZip, npBroadcastShape, bcastLen, shape, bIdx, npRowMax, npMean,
      List.range_succ, Real.exp_zero, Real.log_one]
    rfl

/-- Claim C5, amended: provided the model has at least one parameter array,
the `"L2"` value is the unregularized value plus `L` times the Euclidean
norm of all parameter arrays flattened and concatenated in declared order
(wherever either call is defined), and with `L = 0` the two calls coincide.
With no parameter arrays the `"L2"` branch instead fails at
`np.concatenate([])`. -/
theorem claim_C5 (P : List Mat) (L : ℝ) (outputs targets : Mat) (hP : P ≠ []) :
    CrossEntropySoftmaxError.call ⟨P, some "L2", L⟩ outputs targets =
      (CrossEntropySoftmaxError.call ⟨P, none, L⟩ outputs targets).map
        (fun v => v + L * l2Norm ((P.map (fun p => p.flatten)).flatten)) ∧
    (L = 0 → CrossEntropySoftmaxError.call ⟨P, some "L2", L⟩ outputs targets =
      CrossEntropySoftmaxError.call ⟨P, none, L⟩ outputs targets) := by
  obtain ⟨p0, ps, rfl⟩ := List.exists_cons_of_ne_nil hP
  have h1 : CrossEntropySoftmaxError.call ⟨p0 :: ps, some "L2", L⟩ outputs targets =
      (CrossEntropySoftmaxError.call ⟨p0 :: ps, none, L⟩ outputs targets).map
        (fun v => v + L * l2Norm (((p0 :: ps).map (fun p => p.flatten)).flatten)) := by
    unfold CrossEntropySoftmaxError.call
    cases hlp : CrossEntropySoftmaxError.log_prob outputs with
    | none => rfl
    | some lp =>
      simp only [Option.some_bind]
      cases hz : npMatZip (fun t l => t * l) targets lp with
      | none => rfl
      | some tp => rfl
  refine ⟨h1, ?_⟩
  intro hL
  subst hL
  rw [h1]
  cases CrossEntropySoftmaxError.call ⟨p0 :: ps, none, 0⟩ outputs targets with
  | none => rfl
  | some v => simp

/-- Witness for the amended C5 with one parameter array `[[3]]` and `L = 0`:
the `"L2"` model and the regularizer-free model agree. -/
theorem claim_C5_witness :
    CrossEntropySoftmaxError.call ⟨[[[3]]], some "L2", 0⟩ [[1]] [[1]] =
      CrossEntropySoftmaxError.call ⟨[[[3]]], none, 0⟩ [[1]] [[1]] :=
  (claim_C5 [[[3]]] 0 [[1]] [[1]] (List.cons_ne_nil _ _)).2 rfl

lemma ces_call_of_not_reg (P : List Mat) (L : ℝ) (kind : Option String)
    (h1 : kind ≠ some "L1") (h2 : kind ≠ some "L2") (outputs targets : Mat) :
    CrossEntropySoftmaxError.call ⟨P, kind, L⟩ outputs targets =
      (CrossEntropySoftmaxError.log_prob outputs).bind (fun lp =>
        (npMatZip (fun t l => t * l) targets lp).map (fun tp =>
          -npMean (tp.map List.sum))) := by
  unfold CrossEntropySoftmaxError.call
  congr 1
  funext lp
  cases hz : npMatZip (fun t l => t * l) targets lp with
  | none => rfl
  | some tp =>
    simp only [Option.some_bind, Option.map_some']
    rw [if_neg h1, if_neg h2]

/-- Claim C6: any regularizer kind other than the strings `"L1"` and `"L2"`
(including none at all) leaves the `CrossEntropySoftmaxError` value exactly
the unregularized cross-entropy, with no penalty and no failure on account
of the unrecognized kind. -/
theorem claim_C6 (P : List Mat) (L : ℝ) (kind : Option String)
    (h1 : kind ≠ some "L1") (h2 : kind ≠ some "L2") (outputs targets : Mat) :
    CrossEntropySoftmaxError.call ⟨P, kind, L⟩ outputs targets =
      CrossEntropySoftmaxError.call ⟨P, none, L⟩ outputs targets ∧
    CrossEntropySoftmaxError.call ⟨P, kind, L⟩ outputs targets =
      (CrossEntropySoftmaxError.log_prob outputs).bind (fun lp =>
        (npMatZip (fun t l => t * l) targets lp).map (fun tp =>
          -npMean (tp.map List.sum))) :=
  ⟨(ces_call_of_not_reg P L kind h1 h2 outputs targets).trans
      (ces_call_of_not_reg P L none (by simp) (by simp) outputs targets).symm,
    ces_call_of_not_reg P L kind h1 h2 outputs targets⟩

/-- Witness for C6 with the unrecognized regularizer kind `"dropout"`. -/
theorem claim_C6_witness :
    CrossEntropySoftmaxError.call ⟨[[[3]]], some "dropout", 1⟩ [[1]] [[1]] =
      CrossEntropySoftmaxError.call ⟨[[[3]]], none, 1⟩ [[1]] [[1]] ∧
    CrossEntropySoftmaxError.call ⟨[[[3]]], some "dropout", 1⟩ [[1]] [[1]] =
      (CrossEntropySoftmaxError.log_prob [[1]]).bind (fun lp =>
        (npMatZip (fun t l => t * l) [[1]] lp).map (fun tp =>
          -npMean (tp.map List.sum))) :=
  claim_C6 [[[3]]] 1 (some "dropout") (by decide) (by decide) [[1]] [[1]]

/-- Claim C7: the `CrossEntropySoftmaxError` gradient with respect to the
outputs is the same for any two model states: it reads nothing from the
model, so regularizer kind, strength and parameters never affect it. -/
theorem claim_C7 : ∀ (m1 m2 : Model) (outputs targets : Mat),
    CrossEntropySoftmaxError.grad m1 outputs targets =
      CrossEntropySoftmaxError.grad m2 outputs targets :=
  fun _ _ _ _ => rfl

/-- Modelled from the spec, section 4.2: the binary cross-entropy value
`-mean(targets*log(outputs) + (1-targets)*log(1-outputs))`, written out as a
formula because the source method for section 4.2
(`BinaryCrossEntropyError.__call__`) always fails on its misspelled
variable and so computes no value to compare against. -/
def bce42Value (outputs targets : Mat) : ℝ :=
  -npMeanMat (List.zipWith (fun tr orow =>
    List.zipWith (fun t o => t * Real.log o + (1 - t) * Real.log (1 - o)) tr orow)
    targets outputs)

/-- Claim C8: on equal-shaped arrays with at least one row,
`BinaryCrossEntropySigmoidError` value is the section 4.2 binary
cross-entropy applied to `probs = 1/(1+exp(-outputs))` in place of the
outputs, and its gradient is `(probs - targets) / batch_size`. -/
theorem claim_C8 (outputs targets : Mat) (ho : Rect outputs) (ht : Rect targets)
    (h : shape outputs = shape targets) (hr : 0 < outputs.length) :
    BinaryCrossEntropySigmoidError.call outputs targets =
      some (bce42Value (sigmoidMat outputs) targets) ∧
    BinaryCrossEntropySigmoidError.grad outputs targets =
      some (List.zipWith (fun orow trow =>
        List.zipWith (fun x y =>
          (1 / (1 + Real.exp (-x)) - y) / (outputs.length : ℝ)) orow trow)
        outputs targets) := by
  have hrs : Rect (sigmoidMat outputs) := rect_sigmoidMat outputs ho
  have hss : shape (sigmoidMat outputs) = shape outputs := shape_sigmoidMat outputs
  constructor
  · unfold BinaryCrossEntropySigmoidError.call
    rw [npMatZip_eq_zipWith _ targets (sigmoidMat outputs) ht hrs (by rw [hss, h])]
    rfl
  · unfold BinaryCrossEntropySigmoidError.grad
    rw [npMatZip_eq_zipWith _ (sigmoidMat outputs) targets hrs ht (by rw [hss, h])]
    simp only [Option.map_some', Option.some.injEq]
    simp only [List.map_zipWith]
    unfold sigmoidMat
    simp only [List.zipWith_map_left]

/-- Witness for C8 at `outputs = [[0]]`, `targets = [[1]]`. -/
theorem claim_C8_witness :
    BinaryCrossEntropySigmoidError.call [[0]] [[1]] =
      some (bce42Value (sigmoidMat [[0]]) [[1]]) ∧
    BinaryCrossEntropySigmoidError.grad [[0]] [[1]] =
      some (List.zipWith (fun orow trow =>
        List.zipWith (fun x y =>
          (1 / (1 + Real.exp (-x)) - y) / (([[(0 : ℝ)]] : Mat).length : ℝ)) orow trow)
        [[0]] [[1]]) :=
  claim_C8 [[0]] [[1]] (by unfold Rect; decide) (by unfold Rect; decide) rfl
    (by decide)

/-- Each row of the row-normalized exponentials sums to one, since the
exponentials are positive and the row is divided by its own sum. -/
lemma sum_probs_row (r : List ℝ) (hne : r ≠ []) :
    (((r.map (fun x => x - npRowMax r)).map Real.exp).map (fun x =>
      x / ((r.map (fun y => y - npRowMax r)).map Real.exp).sum)).sum = 1 := by
  have hpos : 0 < ((r.map (fun y => y - npRowMax r)).map Real.exp).sum :=
    sum_exp_pos _ (fun hmap => hne (List.map_eq_nil.mp hmap))
  rw [sum_map_div]
  exact div_self (ne_of_gt hpos)

/-- Claim C10: when every row of the targets sums to one, every row of the
`CrossEntropySoftmaxError` gradient sums to zero, because each softmax row
sums to one before the targets are subtracted. -/
theorem claim_C10 (m : Model) (outputs targets : Mat) (ho : Rect outputs)
    (ht : Rect targets) (h : shape outputs = shape targets)
    (hr : 0 < outputs.length) (hT : ∀ r ∈ targets, r.sum = 1) :
    ∃ g, CrossEntropySoftmaxError.grad m outputs targets = some g ∧
      ∀ r ∈ g, r.sum = 0 := by
  have hto : targets.length = outputs.length := (congrArg Prod.fst h).symm
  have hcolOT : (outputs.headD []).length = (targets.headD []).length :=
    congrArg Prod.snd h
  have ht0 : 0 < targets.length := by
    rw [hto]
    exact hr
  have hT0 : targets[0].sum = 1 := hT targets[0] (List.getElem_mem ht0)
  have hT0ne : targets[0] ≠ [] := by
    intro hnil
    rw [hnil] at hT0
    norm_num at hT0
  have hcolpos : 0 < (outputs.headD []).length := by
    rw [hcolOT, ← ht targets[0] (List.getElem_mem ht0)]
    exact List.length_pos.mpr hT0ne
  have he : outputs.any List.isEmpty = false := by
    cases hany : outputs.any List.isEmpty with
    | false => rfl
    | true =>
      exfalso
      obtain ⟨r, hrmem, hE⟩ := List.any_eq_true.mp hany
      have hrnil : r = [] := by
        cases r with
        | nil => rfl
        | cons a l => simp at hE
      have hlen0 := ho r hrmem
      rw [hrnil] at hlen0
      simp only [List.length_nil] at hlen0
      omega
  have hps := CrossEntropySoftmaxError.probs_eq_some outputs he
  have hgr : CrossEntropySoftmaxError.grad m outputs targets =
      (npMatZip (fun p t => p - t) (outputs.map (fun r =>
      ((r.map (fun x => x - npRowMax r)).map Real.exp).map (fun x =>
        x / ((r.map (fun y => y - npRowMax r)).map Real.exp).sum))) targets).map
        (fun d => d.map (fun r => r.map (fun x => x / (outputs.length : ℝ)))) := by
    unfold CrossEntropySoftmaxError.grad
    rw [hps]
    rfl
  have hrect : Rect (outputs.map (fun r =>
      ((r.map (fun x => x - npRowMax r)).map Real.exp).map (fun x =>
        x / ((r.map (fun y => y - npRowMax r)).map Real.exp).sum))) :=
    rect_map_rows _ (fun r => by simp) outputs ho
  have hshape : shape (outputs.map (fun r =>
      ((r.map (fun x => x - npRowMax r)).map Real.exp).map (fun x =>
        x / ((r.map (fun y => y - npRowMax r)).map Real.exp).sum))) = shape outputs :=
    shape_map_rows _ (fun r => by simp) outputs
  have hz := npMatZip_eq_zipWith (fun p t => p - t) (outputs.map (fun r =>
      ((r.map (fun x => x - npRowMax r)).map Real.exp).map (fun x =>
        x / ((r.map (fun y => y - npRowMax r)).map Real.exp).sum))) targets
    hrect ht (by rw [hshape, h])
  refine ⟨(List.zipWith (fun r s => List.zipWith (fun p t => p - t) r s)
      (outputs.map (fun r =>
      ((r.map (fun x => x - npRowMax r)).map Real.exp).map (fun x =>
        x / ((r.map (fun y => y - npRowMax r)).map Real.exp).sum))) targets).map
      (fun r => r.map (fun x => x / (outputs.length : ℝ))), ?_, ?_⟩
  · rw [hgr, hz]
    rfl
  · intro r hrm
    rw [List.mem_iff_getElem] at hrm
    obtain ⟨i, hi, hieq⟩ := hrm
    have hin : i < outputs.length := by
      simp only [List.length_map, List.length_zipWith, hto, min_self] at hi
      exact hi
    have hit : i < targets.length := by
      rw [hto]
      exact hin
    have hTi : targets[i].sum = 1 := hT targets[i] (List.getElem_mem hit)
    have hcolT : targets[i].length = (targets.headD []).length :=
      ht targets[i] (List.getElem_mem hit)
    have hOlen : outputs[i].length = targets[i].length := by
      rw [ho outputs[i] (List.getElem_mem hin), hcolOT]
      exact hcolT.symm
    have hne : outputs[i] ≠ [] := by
      intro hnil
      rw [hnil] at hOlen
      have htnil : targets[i] = [] :=
        List.eq_nil_of_length_eq_zero (by simpa using hOlen.symm)
      rw [htnil] at hTi
      norm_num at hTi
    have hlen2 : (((outputs[i].map (fun x => x - npRowMax outputs[i])).map
        Real.exp).map (fun x =>
        x / ((outputs[i].map (fun y => y - npRowMax outputs[i])).map
          Real.exp).sum)).length = targets[i].length := by
      simpa using hOlen
    have hone : (((outputs[i].map (fun x => x - npRowMax outputs[i])).map
        Real.exp).map (fun x =>
        x / ((outputs[i].map (fun y => y - npRowMax outputs[i])).map
          Real.exp).sum)).sum = 1 :=
      sum_probs_row outputs[i] hne
    rw [← hieq]
    simp only [List.getElem_map, List.getElem_zipWith]
    rw [sum_map_div, sum_zipWith_sub _ _ hlen2, hone, hTi]
    simp

/-- Witness for C10 at `outputs = [[0,0]]`, one-hot `targets = [[1,0]]`. -/
theorem claim_C10_witness :
    ∃ g, CrossEntropySoftmaxError.grad ⟨[], none, 0⟩ [[0, 0]] [[1, 0]] = some g ∧
      ∀ r ∈ g, r.sum = 0 :=
  claim_C10 ⟨[], none, 0⟩ [[0, 0]] [[1, 0]] (by unfold Rect; decide)
    (by unfold Rect; decide) rfl (by decide)
    (by
      intro r hrm
      simp only [List.mem_singleton] at hrm
      subst hrm
      norm_num)

/-- Claim C9, counterexample: duplicating every row does not leave the
gradient rows unchanged. For `outputs = [[1,2]]`, `targets = [[0,0]]` the
duplicated batch has gradient rows `[1/2, 1]`, not the original `[1, 2]`,
because the divisor `batch_size` doubles. -/
theorem claim_C9_counterexample :
    SumOfSquaredDiffsError.grad (dupRows [[1, 2]]) (dupRows [[0, 0]]) ≠
      (SumOfSquaredDiffsError.grad [[1, 2]] [[0, 0]]).map dupRows := by
  have e1 : dupRows [[(1 : ℝ), 2]] = [[1, 2], [1, 2]] := rfl
  have e2 : dupRows [[(0 : ℝ), 0]] = [[0, 0], [0, 0]] := rfl
  rw [e1, e2]
  have h1 : SumOfSquaredDiffsError.grad [[(1 : ℝ), 2], [1, 2]] [[0, 0], [0, 0]] =
      some [[1 / 2, 1], [1 / 2, 1]] := by
    simp [SumOfSquaredDiffsError.grad, npMatZip, npBroadcastShape, bcastLen, shape,
      bIdx, List.range_succ]
  have h2 : SumOfSquaredDiffsError.grad [[(1 : ℝ), 2]] [[0, 0]] = some [[1, 2]] := by
    simp [SumOfSquaredDiffsError.grad, npMatZip, npBroadcastShape, bcastLen, shape,
      bIdx, List.range_succ]
  rw [h1, h2]
  simp only [Option.map_some', e1, Option.some.injEq]
  intro hlist
  injection hlist with hl
  injection hl with hh _
  injection hh with he _
  norm_num at he

lemma map_div_dupRows_id (n : ℕ) (d : Mat) :
    (dupRows d).map (fun r => r.map (fun x => x / ((2 * n : ℕ) : ℝ))) =
      halfDup (d.map (fun r => r.map (fun x => x / (n : ℝ)))) := by
  unfold halfDup
  rw [← dupRows_map]
  congr 1
  rw [List.map_map]
  apply List.map_congr_left
  intro r _
  simp only [Function.comp_apply, List.map_map]
  apply List.map_congr_left
  intro x _
  simp only [Function.comp_apply]
  push_cast
  rw [div_div]
  ring_nf

lemma map_div_dupRows_neg (n : ℕ) (d : Mat) :
    (dupRows d).map (fun r => r.map (fun x => -x / ((2 * n : ℕ) : ℝ))) =
      halfDup (d.map (fun r => r.map (fun x => -x / (n : ℝ)))) := by
  unfold halfDup
  rw [← dupRows_map]
  congr 1
  rw [List.map_map]
  apply List.map_congr_left
  intro r _
  simp only [Function.comp_apply, List.map_map]
  apply List.map_congr_left
  intro x _
  simp only [Function.comp_apply]
  push_cast
  rw [div_div]
  ring_nf

lemma ssd_call_dupRows (o t : Mat) (ho : Rect o) (ht : Rect t)
    (h : shape o = shape t) :
    SumOfSquaredDiffsError.call (dupRows o) (dupRows t) =
      SumOfSquaredDiffsError.call o t := by
  unfold SumOfSquaredDiffsError.call
  rw [npMatZip_dupRows _ o t ho ht h, Option.map_map]
  congr 1
  funext d
  simp only [Function.comp_apply]
  rw [npMean_map_dupRows]

lemma ssd_grad_dupRows (o t : Mat) (ho : Rect o) (ht : Rect t)
    (h : shape o = shape t) :
    SumOfSquaredDiffsError.grad (dupRows o) (dupRows t) =
      (SumOfSquaredDiffsError.grad o t).map halfDup := by
  unfold SumOfSquaredDiffsError.grad
  rw [npMatZip_dupRows _ o t ho ht h, Option.map_map, Option.map_map]
  congr 1
  funext d
  simp only [Function.comp_apply, length_dupRows]
  exact map_div_dupRows_id o.length d

lemma bce_grad_dupRows (o t : Mat) (ho : Rect o) (ht : Rect t)
    (h : shape o = shape t) :
    BinaryCrossEntropyError.grad (dupRows o) (dupRows t) =
      (BinaryCrossEntropyError.grad o t).map halfDup := by
  unfold BinaryCrossEntropyError.grad
  rw [npMatZip_dupRows _ t o ht ho h.symm, Option.map_map, Option.map_map]
  congr 1
  funext d
  simp only [Function.comp_apply, length_dupRows]
  exact map_div_dupRows_id o.length d

lemma sig_call_dupRows (o t : Mat) (ho : Rect o) (ht : Rect t)
    (h : shape o = shape t) :
    BinaryCrossEntropySigmoidError.call (dupRows o) (dupRows t) =
      BinaryCrossEntropySigmoidError.call o t := by
  unfold BinaryCrossEntropySigmoidError.call
  rw [sigmoidMat_dupRows,
    npMatZip_dupRows _ t (sigmoidMat o) ht (rect_sigmoidMat o ho)
      (by rw [shape_sigmoidMat]; exact h.symm),
    Option.map_map]
  congr 1
  funext d
  simp only [Function.comp_apply]
  rw [npMeanMat_dupRows]

lemma sig_grad_dupRows (o t : Mat) (ho : Rect o) (ht : Rect t)
    (h : shape o = shape t) :
    BinaryCrossEntropySigmoidError.grad (dupRows o) (dupRows t) =
      (BinaryCrossEntropySigmoidError.grad o t).map halfDup := by
  unfold BinaryCrossEntropySigmoidError.grad
  rw [sigmoidMat_dupRows,
    npMatZip_dupRows _ (sigmoidMat o) t (rect_sigmoidMat o ho) ht
      (by rw [shape_sigmoidMat]; exact h),
    Option.map_map, Option.map_map]
  congr 1
  funext d
  simp only [Function.comp_apply, length_dupRows]
  exact map_div_dupRows_id o.length d

lemma ce_call_dupRows (o t : Mat) (ho : Rect o) (ht : Rect t)
    (h : shape o = shape t) :
    CrossEntropyError.call (dupRows o) (dupRows t) = CrossEntropyError.call o t := by
  unfold CrossEntropyError.call
  rw [npMatZip_dupRows _ t o ht ho h.symm, Option.map_map]
  congr 1
  funext d
  simp only [Function.comp_apply]
  rw [npMean_map_dupRows]

lemma ce_grad_dupRows (o t : Mat) (ho : Rect o) (ht : Rect t)
    (h : shape o = shape t) :
    CrossEntropyError.grad (dupRows o) (dupRows t) =
      (CrossEntropyError.grad o t).map halfDup := by
  unfold CrossEntropyError.grad
  rw [npMatZip_dupRows _ t o ht ho h.symm, Option.map_map, Option.map_map]
  congr 1
  funext d
  simp only [Function.comp_apply, length_dupRows]
  exact map_div_dupRows_neg o.length d

lemma ces_call_dupRows (m : Model) (o t : Mat) (ho : Rect o) (ht : Rect t)
    (h : shape o = shape t) :
    CrossEntropySoftmaxError.call m (dupRows o) (dupRows t) =
      CrossEntropySoftmaxError.call m o t := by
  unfold CrossEntropySoftmaxError.call
  rw [CrossEntropySoftmaxError.log_prob_dupRows]
  cases hlp : CrossEntropySoftmaxError.log_prob o with
  | none => rfl
  | some lp =>
    simp only [Option.map_some', Option.some_bind]
    rw [npMatZip_dupRows _ t lp ht (CrossEntropySoftmaxError.rect_of_log_prob hlp ho)
      (by rw [CrossEntropySoftmaxError.shape_of_log_prob hlp]; exact h.symm)]
    cases hz : npMatZip (fun t l => t * l) t lp with
    | none => rfl
    | some tp =>
      simp only [Option.map_some', Option.some_bind]
      rw [npMean_map_dupRows]

lemma ces_grad_dupRows (m : Model) (o t : Mat) (ho : Rect o) (ht : Rect t)
    (h : shape o = shape t) :
    CrossEntropySoftmaxError.grad m (dupRows o) (dupRows t) =
      (CrossEntropySoftmaxError.grad m o t).map halfDup := by
  unfold CrossEntropySoftmaxError.grad
  rw [CrossEntropySoftmaxError.probs_dupRows]
  cases hp : CrossEntropySoftmaxError.probs o with
  | none => rfl
  | some p =>
    simp only [Option.map_some', Option.some_bind]
    rw [npMatZip_dupRows _ p t (CrossEntropySoftmaxError.rect_of_probs hp ho) ht
      (by rw [CrossEntropySoftmaxError.shape_of_probs hp]; exact h)]
    cases hz : npMatZip (fun p t => p - t) p t with
    | none => rfl
    | some d =>
      simp only [Option.map_some', length_dupRows]
      exact congrArg some (map_div_dupRows_id o.length d)

/-- Claim C9, amended: duplicating every row of outputs and targets leaves
every variant's value unchanged, but its gradient rows are the original
rows halved (then duplicated), because the divisor `batch_size` doubles. -/
theorem claim_C9_amended (outputs targets : Mat) (ho : Rect outputs)
    (ht : Rect targets) (h : shape outputs = shape targets)
    (hr : 0 < outputs.length) :
    (SumOfSquaredDiffsError.call (dupRows outputs) (dupRows targets) =
        SumOfSquaredDiffsError.call outputs targets ∧
      SumOfSquaredDiffsError.grad (dupRows outputs) (dupRows targets) =
        (SumOfSquaredDiffsError.grad outputs targets).map halfDup) ∧
    (BinaryCrossEntropyError.call (dupRows outputs) (dupRows targets) =
        BinaryCrossEntropyError.call outputs targets ∧
      BinaryCrossEntropyError.grad (dupRows outputs) (dupRows targets) =
        (BinaryCrossEntropyError.grad outputs targets).map halfDup) ∧
    (BinaryCrossEntropySigmoidError.call (dupRows outputs) (dupRows targets) =
        BinaryCrossEntropySigmoidError.call outputs targets ∧
      BinaryCrossEntropySigmoidError.grad (dupRows outputs) (dupRows targets) =
        (BinaryCrossEntropySigmoidError.grad outputs targets).map halfDup) ∧
    (CrossEntropyError.call (dupRows outputs) (dupRows targets) =
        CrossEntropyError.call outputs targets ∧
      CrossEntropyError.grad (dupRows outputs) (dupRows targets) =
        (CrossEntropyError.grad outputs targets).map halfDup) ∧
    (∀ m : Model,
      CrossEntropySoftmaxError.call m (dupRows outputs) (dupRows targets) =
        CrossEntropySoftmaxError.call m outputs targets ∧
      CrossEntropySoftmaxError.grad m (dupRows outputs) (dupRows targets) =
        (CrossEntropySoftmaxError.grad m outputs targets).map halfDup) :=
  ⟨⟨ssd_call_dupRows outputs targets ho ht h, ssd_grad_dupRows outputs targets ho ht h⟩,
    ⟨rfl, bce_grad_dupRows outputs targets ho ht h⟩,
    ⟨sig_call_dupRows outputs targets ho ht h, sig_grad_dupRows outputs targets ho ht h⟩,
    ⟨ce_call_dupRows outputs targets ho ht h, ce_grad_dupRows outputs targets ho ht h⟩,
    fun m => ⟨ces_call_dupRows m outputs targets ho ht h,
      ces_grad_dupRows m outputs targets ho ht h⟩⟩

/-- Witness for the amended C9 at `outputs = [[1,2]]`, `targets = [[0,0]]`,
with the regularizer-free model for the softmax variant. -/
theorem claim_C9_amended_witness :
    (SumOfSquaredDiffsError.call (dupRows [[1, 2]]) (dupRows [[0, 0]]) =
        SumOfSquaredDiffsError.call [[1, 2]] [[0, 0]] ∧
      SumOfSquaredDiffsError.grad (dupRows [[1, 2]]) (dupRows [[0, 0]]) =
        (SumOfSquaredDiffsError.grad [[1, 2]] [[0, 0]]).map halfDup) ∧
    (BinaryCrossEntropySigmoidError.call (dupRows [[1, 2]]) (dupRows [[0, 0]]) =
        BinaryCrossEntropySigmoidError.call [[1, 2]] [[0, 0]] ∧
      BinaryCrossEntropySigmoidError.grad (dupRows [[1, 2]]) (dupRows [[0, 0]]) =
        (BinaryCrossEntropySigmoidError.grad [[1, 2]] [[0, 0]]).map halfDup) ∧
    (CrossEntropySoftmaxError.call ⟨[], none, 0⟩ (dupRows [[1, 2]]) (dupRows [[0, 0]]) =
        CrossEntropySoftmaxError.call ⟨[], none, 0⟩ [[1, 2]] [[0, 0]] ∧
      CrossEntropySoftmaxError.grad ⟨[], none, 0⟩ (dupRows [[1, 2]]) (dupRows [[0, 0]]) =
        (CrossEntropySoftmaxError.grad ⟨[], none, 0⟩ [[1, 2]] [[0, 0]]).map halfDup) := by
  have hc := claim_C9_amended [[1, 2]] [[0, 0]] (by unfold Rect; decide)
    (by unfold Rect; decide) rfl (by decide)
  exact ⟨hc.1, hc.2.2.1, hc.2.2.2.2 ⟨[], none, 0⟩⟩
